import Mathlib

/-
Verification of the spack binary build-cache subsystem
(lib/spack/spack/binary_distribution.py) against its design document.

The Python module is shallowly embedded below: every function that a claim
refers to is translated into an executable Lean definition over explicit
state.  External collaborators (the network transport, the GPG signer, the
content-hash primitive sha256, the FileCache utility) are modelled by the
interfaces the module uses: pure oracles passed in as parameters, so that
theorems quantify over their behaviour.
-/

/-- True when the string starts with a path separator. -/
def headIsSlash (s : String) : Bool :=
  match s.data with
  | [] => false
  | c :: _ => c = '/'

/-- True when the string ends with a path separator. -/
def lastIsSlash (s : String) : Bool :=
  match s.data.getLast? with
  | some c => c = '/'
  | none => false

/-- Python os.path.join for two POSIX components: an absolute second
component discards the first, otherwise the parts are joined with a
single separator (matches posixpath.join). -/
def pathJoin (a b : String) : String :=
  if headIsSlash b then b
  else if a = "" then b
  else if lastIsSlash a then a ++ b
  else a ++ "/" ++ b

/-- Association-list lookup, modelling Python dict access d[k]. -/
def alookup {α : Type} (k : String) : List (String × α) → Option α
  | [] => none
  | (k2, v) :: rest => if k = k2 then some v else alookup k rest

/-- Association-list update, modelling Python dict assignment d[k] = v: an
existing key is updated in place, a new key is appended at the end
(Python dicts preserve insertion order). -/
def aupdate {α : Type} (k : String) (v : α) : List (String × α) → List (String × α)
  | [] => [(k, v)]
  | (k2, v2) :: rest => if k = k2 then (k, v) :: rest else (k2, v2) :: aupdate k v rest

/-- Association-list deletion, modelling Python del d[k]. -/
def aremove {α : Type} (k : String) : List (String × α) → List (String × α)
  | [] => []
  | (k2, v) :: rest => if k2 = k then aremove k rest else (k2, v) :: aremove k rest

/-- Python truthiness of an optional string: None and the empty string are
falsy, every other string is truthy. -/
def pyTruthyStr : Option String → Bool
  | none => false
  | some s => s != ""

/-- One entry of the local index cache (the values of the
_local_index_cache dict): the content hash of a mirror's index.json and
the cache key (relative file name) under which its body is stored. -/
structure CacheEntry where
  index_hash : String
  index_path : String
deriving DecidableEq, Repr

/-- State of a BinaryDistributionCacheManager together with the on-disk
artifacts it owns.  file_cache maps resolved file paths to contents and is
modelled from the spec: spack.util.file_cache.FileCache is not part of the
reviewed sources; per the design document it stores one file per entry and
removing an entry deletes its file.  persisted is the content of the
contents.json index-of-indices written by _write_local_index_cache. -/
structure CacheState where
  local_index_cache : List (String × CacheEntry)
  file_cache : List (String × String)
  built_spec_cache_invalid : Bool
  persisted : Option (List (String × CacheEntry))
deriving DecidableEq, Repr

/-- The byte-oriented mirror transport, an external collaborator: reading
build_cache/index.json.hash and build_cache/index.json for a mirror url.
A result of none models a URLError / SpackWebError. -/
structure Remote where
  read_hash_file : String → Option String
  read_index_file : String → Option String

/-- Network events performed by the cache manager, used to state which
fetches an operation actually issued. -/
inductive FetchEvent
  | fetchHash (mirror_url : String)
  | fetchIndex (mirror_url : String)
deriving DecidableEq, Repr

/-- Cache key chosen for a fetched index body whose computed hash is h:
'index_' + hash[:10] + '.json'. -/
def indexCacheKey (h : String) : String :=
  String.mk ("index_".data ++ h.data.take 10 ++ ".json".data)

/-- Model of BinaryDistributionCacheManager.fetch_and_cache_index.
H models compute_hash (sha256 hexdigest), root the _index_cache_root
directory.  The hash sidecar is read first (fetched_hash stays '' on a
read error); when expect_hash is truthy and equal to the fetched hash the
function returns without fetching the index body.  Otherwise the body is
fetched; a read error abandons the operation, as does a mismatch between
the locally computed hash of the body and the separately fetched hash.
On success the body is stored in the file cache and the mirror's entry is
updated. -/
def fetch_and_cache_index (H : String → String) (root : String) (remote : Remote)
    (st : CacheState) (mirror_url : String) (expect_hash : Option String) :
    CacheState × List FetchEvent :=
  let fetched_hash := (remote.read_hash_file mirror_url).getD ""
  if pyTruthyStr expect_hash && (fetched_hash == expect_hash.getD "") then
    (st, [FetchEvent.fetchHash mirror_url])
  else
    match remote.read_index_file mirror_url with
    | none => (st, [FetchEvent.fetchHash mirror_url, FetchEvent.fetchIndex mirror_url])
    | some body =>
      let locally := H body
      if locally != fetched_hash then
        (st, [FetchEvent.fetchHash mirror_url, FetchEvent.fetchIndex mirror_url])
      else
        ({ st with
            file_cache := aupdate (pathJoin root (indexCacheKey locally)) body st.file_cache,
            local_index_cache :=
              aupdate mirror_url
                { index_hash := locally, index_path := indexCacheKey locally }
                st.local_index_cache,
            built_spec_cache_invalid := true },
         [FetchEvent.fetchHash mirror_url, FetchEvent.fetchIndex mirror_url])

/-- C4: when the index body is fetched but its locally computed hash does
not equal the separately fetched content of index.json.hash,
fetch_and_cache_index abandons the operation without modifying the cache
state: any pre-existing entry for the mirror is exactly as before. -/
theorem fetch_and_cache_index_mismatch_preserves
    (H : String → String) (root : String) (remote : Remote) (st : CacheState)
    (url : String) (expect_hash : Option String) (body : String)
    (hskip : (pyTruthyStr expect_hash &&
      ((remote.read_hash_file url).getD "" == expect_hash.getD "")) = false)
    (hbody : remote.read_index_file url = some body)
    (hmm : H body ≠ (remote.read_hash_file url).getD "") :
    (fetch_and_cache_index H root remote st url expect_hash).1 = st ∧
      FetchEvent.fetchIndex url ∈ (fetch_and_cache_index H root remote st url expect_hash).2 := by
  unfold fetch_and_cache_index
  rw [hbody]
  simp only [hskip, Bool.false_eq_true, if_false]
  simp [bne_iff_ne, hmm]

/-- Witness for C4 at a concrete input: identity hash, remote hash file
content 'h1', index body 'b1', empty initial cache. -/
theorem fetch_and_cache_index_mismatch_preserves_w :
    (fetch_and_cache_index (fun s => s) "/r"
      { read_hash_file := fun _ => some "h1", read_index_file := fun _ => some "b1" }
      { local_index_cache := [], file_cache := [],
        built_spec_cache_invalid := false, persisted := none }
      "m1" none).1 =
      { local_index_cache := [], file_cache := [],
        built_spec_cache_invalid := false, persisted := none } ∧
    FetchEvent.fetchIndex "m1" ∈
      (fetch_and_cache_index (fun s => s) "/r"
        { read_hash_file := fun _ => some "h1", read_index_file := fun _ => some "b1" }
        { local_index_cache := [], file_cache := [],
          built_spec_cache_invalid := false, persisted := none }
        "m1" none).2 :=
  fetch_and_cache_index_mismatch_preserves (fun s => s) "/r"
    { read_hash_file := fun _ => some "h1", read_index_file := fun _ => some "b1" }
    { local_index_cache := [], file_cache := [],
      built_spec_cache_invalid := false, persisted := none }
    "m1" none "b1" (by decide) rfl (by decide)

/-- First loop of update_local_index_cache: walk the cached mirror urls;
a url that is still configured is refreshed via fetch_and_cache_index with
the recorded hash as expect_hash, a url no longer configured is left for
the removal pass. -/
def refreshLoop (H : String → String) (root : String) (remote : Remote)
    (configured : List String) :
    List (String × CacheEntry) → CacheState → List FetchEvent → CacheState × List FetchEvent
  | [], st, evs => (st, evs)
  | (url, ce) :: rest, st, evs =>
    if configured.contains url then
      let r := fetch_and_cache_index H root remote st url (some ce.index_hash)
      refreshLoop H root remote configured rest r.1 (evs ++ r.2)
    else refreshLoop H root remote configured rest st evs

/-- Removal pass of update_local_index_cache: for every item collected in
items_to_remove, remove the cached index file and delete the mirror's
entry from the local index cache. -/
def removeLoop (root : String) :
    List (String × CacheEntry) → CacheState → CacheState
  | [], st => st
  | (url, ce) :: rest, st =>
    removeLoop root rest
      { st with
          file_cache := aremove (pathJoin root ce.index_path) st.file_cache,
          local_index_cache := aremove url st.local_index_cache }

/-- Final loop of update_local_index_cache: every configured mirror url
with no entry in the local index cache is fetched and cached. -/
def newFetchLoop (H : String → String) (root : String) (remote : Remote) :
    List String → CacheState → List FetchEvent → CacheState × List FetchEvent
  | [], st, evs => (st, evs)
  | url :: rest, st, evs =>
    match alookup url st.local_index_cache with
    | some _ => newFetchLoop H root remote rest st evs
    | none =>
      let r := fetch_and_cache_index H root remote st url none
      newFetchLoop H root remote rest r.1 (evs ++ r.2)

/-- Model of BinaryDistributionCacheManager.update_local_index_cache:
refresh still-configured cached mirrors, remove entries for mirrors no
longer configured, fetch indices of newly configured mirrors, and persist
the resulting index-of-indices via _write_local_index_cache. -/
def update_local_index_cache (H : String → String) (root : String) (remote : Remote)
    (configured : List String) (st : CacheState) : CacheState × List FetchEvent :=
  let phase1 := refreshLoop H root remote configured st.local_index_cache st []
  let to_remove := st.local_index_cache.filter (fun e => !(configured.contains e.1))
  let phase2 := removeLoop root to_remove phase1.1
  let phase3 := newFetchLoop H root remote configured phase2 phase1.2
  ({ phase3.1 with persisted := some phase3.1.local_index_cache }, phase3.2)

/-- Looking up the key just updated yields the new value. -/
theorem alookup_aupdate_self {α : Type} (k : String) (v : α) (l : List (String × α)) :
    alookup k (aupdate k v l) = some v := by
  induction l with
  | nil => simp [aupdate, alookup]
  | cons e rest ih =>
    obtain ⟨k2, v2⟩ := e
    by_cases h : k = k2
    · simp [aupdate, alookup, h]
    · simp [aupdate, alookup, h, ih]

/-- Updating one key leaves lookups of other keys unchanged. -/
theorem alookup_aupdate_ne {α : Type} {k k2 : String} (h : k ≠ k2) (v : α)
    (l : List (String × α)) : alookup k (aupdate k2 v l) = alookup k l := by
  induction l with
  | nil => simp [aupdate, alookup, h]
  | cons e rest ih =>
    obtain ⟨k3, v3⟩ := e
    by_cases h2 : k2 = k3
    · subst h2
      simp [aupdate, alookup, h]
    · by_cases h3 : k = k3 <;> simp [aupdate, alookup, h2, h3, ih]

/-- Looking up a removed key yields none. -/
theorem alookup_aremove_self {α : Type} (k : String) (l : List (String × α)) :
    alookup k (aremove k l) = none := by
  induction l with
  | nil => rfl
  | cons e rest ih =>
    obtain ⟨k2, v2⟩ := e
    by_cases h : k2 = k
    · simpa [aremove, h] using ih
    · have hne : k ≠ k2 := fun hh => h hh.symm
      simpa [aremove, alookup, h, hne] using ih

/-- Removing one key leaves lookups of other keys unchanged. -/
theorem alookup_aremove_ne {α : Type} {k k2 : String} (h : k ≠ k2)
    (l : List (String × α)) : alookup k (aremove k2 l) = alookup k l := by
  induction l with
  | nil => rfl
  | cons e rest ih =>
    obtain ⟨k3, v3⟩ := e
    by_cases h2 : k3 = k2
    · subst h2
      have hne : k ≠ k3 := h
      simp [aremove, alookup, hne, ih]
    · by_cases h3 : k = k3 <;> simp [aremove, alookup, h2, h3, ih]

/-- A key that occurs in the list does not look up to none. -/
theorem alookup_ne_none_of_mem {α : Type} {k : String} {v : α} {l : List (String × α)}
    (hmem : (k, v) ∈ l) : alookup k l ≠ none := by
  induction l with
  | nil => cases hmem
  | cons e rest ih =>
    obtain ⟨k2, v2⟩ := e
    by_cases h2 : k = k2
    · simp [alookup, h2]
    · have hv : (k, v) ∈ rest := by
        cases hmem with
        | head => exact absurd rfl h2
        | tail _ h3 => exact h3
      simpa [alookup, h2] using ih hv

/-- In a list with no duplicate keys, a member entry is what lookup finds. -/
theorem alookup_mem_nodup {α : Type} {k : String} {v : α} {l : List (String × α)}
    (hmem : (k, v) ∈ l) (hnd : (l.map Prod.fst).Nodup) : alookup k l = some v := by
  induction l with
  | nil => cases hmem
  | cons e rest ih =>
    obtain ⟨k2, v2⟩ := e
    rw [List.map_cons] at hnd
    have hnd1 := List.nodup_cons.mp hnd
    by_cases h2 : k = k2
    · subst h2
      have hv2 : v2 = v := by
        cases hmem with
        | head => rfl
        | tail _ h3 =>
          exfalso
          have hk : Prod.fst (k, v) ∈ List.map Prod.fst rest :=
            List.mem_map_of_mem Prod.fst h3
          exact hnd1.1 hk
      simp [alookup, hv2]
    · have hv : (k, v) ∈ rest := by
        cases hmem with
        | head => exact absurd rfl h2
        | tail _ h3 => exact h3
      simp [alookup, h2, ih hv hnd1.2]

/-- Lookups of other mirrors are unchanged by fetch_and_cache_index. -/
theorem faci_lookup_ne (H : String → String) (root : String) (remote : Remote)
    (st : CacheState) (url : String) (expect_hash : Option String) {url0 : String}
    (h : url0 ≠ url) :
    alookup url0 (fetch_and_cache_index H root remote st url expect_hash).1.local_index_cache
      = alookup url0 st.local_index_cache := by
  simp only [fetch_and_cache_index]
  split
  · rfl
  · split
    · rfl
    · split
      · rfl
      · simp [alookup_aupdate_ne h]

/-- Every event of fetch_and_cache_index concerns the fetched mirror. -/
theorem faci_event_mem (H : String → String) (root : String) (remote : Remote)
    (st : CacheState) (url : String) (expect_hash : Option String) {e : FetchEvent}
    (h : e ∈ (fetch_and_cache_index H root remote st url expect_hash).2) :
    e = FetchEvent.fetchHash url ∨ e = FetchEvent.fetchIndex url := by
  simp only [fetch_and_cache_index] at h
  split at h
  · simp at h
    exact Or.inl h
  · split at h
    · simp at h
      exact h
    · split at h
      · simp at h
        exact h
      · simp at h
        exact h

/-- fetch_and_cache_index always reads the hash sidecar first. -/
theorem faci_hash_mem (H : String → String) (root : String) (remote : Remote)
    (st : CacheState) (url : String) (expect_hash : Option String) :
    FetchEvent.fetchHash url ∈ (fetch_and_cache_index H root remote st url expect_hash).2 := by
  simp only [fetch_and_cache_index]
  split
  · simp
  · split
    · simp
    · split <;> simp

/-- When the expected hash is nonempty and the remote hash sidecar still
carries exactly that hash, fetch_and_cache_index returns without fetching
the index body and without touching the state. -/
theorem faci_skip (H : String → String) (root : String) (remote : Remote)
    (st : CacheState) (url : String) (h : String)
    (hh : remote.read_hash_file url = some h) (hne : h ≠ "") :
    fetch_and_cache_index H root remote st url (some h)
      = (st, [FetchEvent.fetchHash url]) := by
  simp [fetch_and_cache_index, hh, pyTruthyStr, bne_iff_ne, hne]

/-- When the sidecar hash matches the hash of the successfully fetched
body, fetch_and_cache_index records the new entry for the mirror. -/
theorem faci_fetch_success (H : String → String) (root : String) (remote : Remote)
    (st : CacheState) (url : String) (b : String)
    (hh : remote.read_hash_file url = some (H b))
    (hb : remote.read_index_file url = some b) :
    (fetch_and_cache_index H root remote st url none).1.local_index_cache
      = aupdate url { index_hash := H b, index_path := indexCacheKey (H b) }
          st.local_index_cache := by
  simp [fetch_and_cache_index, hh, hb, pyTruthyStr]

/-- File-cache lookups at a path no fetched body of this mirror can store
to are unchanged by fetch_and_cache_index. -/
theorem faci_file_other (H : String → String) (root : String) (remote : Remote)
    (st : CacheState) (url : String) (expect_hash : Option String) {p : String}
    (hp : ∀ b, remote.read_index_file url = some b →
      pathJoin root (indexCacheKey (H b)) ≠ p) :
    alookup p (fetch_and_cache_index H root remote st url expect_hash).1.file_cache
      = alookup p st.file_cache := by
  simp only [fetch_and_cache_index]
  split
  · rfl
  · split
    · rfl
    · next body heq =>
      split
      · rfl
      · exact alookup_aupdate_ne (Ne.symm (hp body heq)) _ _

/-- Events already issued persist through refreshLoop. -/
theorem refreshLoop_events_mono (H : String → String) (root : String) (remote : Remote)
    (configured : List String) (entries : List (String × CacheEntry))
    (st : CacheState) (evs : List FetchEvent) {e : FetchEvent} (he : e ∈ evs) :
    e ∈ (refreshLoop H root remote configured entries st evs).2 := by
  induction entries generalizing st evs with
  | nil => exact he
  | cons hd rest ih =>
    obtain ⟨url, ce⟩ := hd
    by_cases hc : configured.contains url = true
    · simp only [refreshLoop, hc, if_true]
      exact ih _ _ (List.mem_append_left _ he)
    · simp only [refreshLoop, hc, if_false]
      exact ih _ _ he

/-- refreshLoop leaves the entry of a mirror alone when every cached
occurrence of that mirror is either no longer configured or has a
nonempty recorded hash still matching the remote sidecar. -/
theorem refreshLoop_lookup (H : String → String) (root : String) (remote : Remote)
    (configured : List String) {url0 : String}
    (entries : List (String × CacheEntry)) (st : CacheState) (evs : List FetchEvent)
    (hok : ∀ ce, (url0, ce) ∈ entries → configured.contains url0 = false ∨
      (ce.index_hash ≠ "" ∧ remote.read_hash_file url0 = some ce.index_hash)) :
    alookup url0 (refreshLoop H root remote configured entries st evs).1.local_index_cache
      = alookup url0 st.local_index_cache := by
  induction entries generalizing st evs with
  | nil => rfl
  | cons hd rest ih =>
    obtain ⟨url, ce⟩ := hd
    have hok2 : ∀ ce2, (url0, ce2) ∈ rest → configured.contains url0 = false ∨
        (ce2.index_hash ≠ "" ∧ remote.read_hash_file url0 = some ce2.index_hash) :=
      fun ce2 hm => hok ce2 (List.mem_cons_of_mem _ hm)
    by_cases hc : configured.contains url = true
    · by_cases hu : url = url0
      · subst hu
        rcases hok ce (List.mem_cons_self _ _) with hbad | hutd
        · rw [hc] at hbad
          cases hbad
        · simp only [refreshLoop, hc, if_true]
          rw [faci_skip H root remote st url ce.index_hash hutd.2 hutd.1]
          exact ih st _ hok2
      · have hne : url0 ≠ url := fun hh => hu hh.symm
        simp only [refreshLoop, hc, if_true]
        rw [ih _ _ hok2]
        exact faci_lookup_ne H root remote st url _ hne
    · simp only [refreshLoop, hc, if_false]
      exact ih st evs hok2

/-- refreshLoop issues no index-body fetch for a mirror whose cached
occurrences are all unconfigured or up to date. -/
theorem refreshLoop_no_index_fetch (H : String → String) (root : String) (remote : Remote)
    (configured : List String) {url0 : String}
    (entries : List (String × CacheEntry)) (st : CacheState) (evs : List FetchEvent)
    (hok : ∀ ce, (url0, ce) ∈ entries → configured.contains url0 = false ∨
      (ce.index_hash ≠ "" ∧ remote.read_hash_file url0 = some ce.index_hash))
    (hevs : FetchEvent.fetchIndex url0 ∉ evs) :
    FetchEvent.fetchIndex url0 ∉ (refreshLoop H root remote configured entries st evs).2 := by
  induction entries generalizing st evs with
  | nil => exact hevs
  | cons hd rest ih =>
    obtain ⟨url, ce⟩ := hd
    have hok2 : ∀ ce2, (url0, ce2) ∈ rest → configured.contains url0 = false ∨
        (ce2.index_hash ≠ "" ∧ remote.read_hash_file url0 = some ce2.index_hash) :=
      fun ce2 hm => hok ce2 (List.mem_cons_of_mem _ hm)
    by_cases hc : configured.contains url = true
    · by_cases hu : url = url0
      · subst hu
        rcases hok ce (List.mem_cons_self _ _) with hbad | hutd
        · rw [hc] at hbad
          cases hbad
        · simp only [refreshLoop, hc, if_true]
          rw [faci_skip H root remote st url ce.index_hash hutd.2 hutd.1]
          refine ih st _ hok2 ?_
          intro hmem
          rcases List.mem_append.mp hmem with hmem | hmem
          · exact hevs hmem
          · simp at hmem
      · simp only [refreshLoop, hc, if_true]
        refine ih _ _ hok2 ?_
        intro hmem
        rcases List.mem_append.mp hmem with hmem | hmem
        · exact hevs hmem
        · rcases faci_event_mem H root remote st url _ hmem with h | h
          · cases h
          · injection h with h2
            exact hu h2.symm
    · simp only [refreshLoop, hc, if_false]
      exact ih st evs hok2 hevs

/-- refreshLoop reads the hash sidecar of every cached mirror that is
still configured. -/
theorem refreshLoop_hash_fetched (H : String → String) (root : String) (remote : Remote)
    (configured : List String) {url0 : String} {ce0 : CacheEntry}
    (entries : List (String × CacheEntry)) (st : CacheState) (evs : List FetchEvent)
    (hmem : (url0, ce0) ∈ entries) (hc : configured.contains url0 = true) :
    FetchEvent.fetchHash url0 ∈ (refreshLoop H root remote configured entries st evs).2 := by
  induction entries generalizing st evs with
  | nil => cases hmem
  | cons hd rest ih =>
    obtain ⟨url, ce⟩ := hd
    cases hmem with
    | head =>
      simp only [refreshLoop, hc, if_true]
      exact refreshLoop_events_mono H root remote configured rest _ _
        (List.mem_append_right _ (faci_hash_mem H root remote st url0 _))
    | tail _ h3 =>
      by_cases hc2 : configured.contains url = true
      · simp only [refreshLoop, hc2, if_true]
        exact ih _ _ h3
      · simp only [refreshLoop, hc2, if_false]
        exact ih st evs h3


/-- A mirror entry already absent stays absent through removeLoop. -/
theorem removeLoop_lookup_none (root : String) (items : List (String × CacheEntry))
    (st : CacheState) {url0 : String}
    (h : alookup url0 st.local_index_cache = none) :
    alookup url0 (removeLoop root items st).local_index_cache = none := by
  induction items generalizing st with
  | nil => exact h
  | cons hd rest ih =>
    obtain ⟨url, ce⟩ := hd
    simp only [removeLoop]
    apply ih
    by_cases hu : url0 = url
    · rw [hu]
      exact alookup_aremove_self _ _
    · rw [alookup_aremove_ne hu]
      exact h

/-- Every mirror collected for removal is absent after removeLoop. -/
theorem removeLoop_removes (root : String) (items : List (String × CacheEntry))
    (st : CacheState) {url0 : String} {ce0 : CacheEntry}
    (hmem : (url0, ce0) ∈ items) :
    alookup url0 (removeLoop root items st).local_index_cache = none := by
  induction items generalizing st with
  | nil => cases hmem
  | cons hd rest ih =>
    obtain ⟨url, ce⟩ := hd
    cases hmem with
    | head =>
      simp only [removeLoop]
      apply removeLoop_lookup_none
      exact alookup_aremove_self _ _
    | tail _ h3 =>
      simp only [removeLoop]
      exact ih _ h3

/-- Mirrors not collected for removal keep their entry through removeLoop. -/
theorem removeLoop_lookup_notmem (root : String) (items : List (String × CacheEntry))
    (st : CacheState) {url0 : String}
    (h : ∀ ce, (url0, ce) ∉ items) :
    alookup url0 (removeLoop root items st).local_index_cache
      = alookup url0 st.local_index_cache := by
  induction items generalizing st with
  | nil => rfl
  | cons hd rest ih =>
    obtain ⟨url, ce⟩ := hd
    have hu : url0 ≠ url := by
      intro hh
      rw [hh] at h
      exact h ce (List.mem_cons_self _ _)
    simp only [removeLoop]
    rw [ih _ (fun ce2 hm => h ce2 (List.mem_cons_of_mem _ hm))]
    exact alookup_aremove_ne hu _

/-- A file already absent stays absent through removeLoop. -/
theorem removeLoop_file_none (root : String) (items : List (String × CacheEntry))
    (st : CacheState) {p : String}
    (h : alookup p st.file_cache = none) :
    alookup p (removeLoop root items st).file_cache = none := by
  induction items generalizing st with
  | nil => exact h
  | cons hd rest ih =>
    obtain ⟨url, ce⟩ := hd
    simp only [removeLoop]
    apply ih
    by_cases hp : p = pathJoin root ce.index_path
    · rw [hp]
      exact alookup_aremove_self _ _
    · rw [alookup_aremove_ne hp]
      exact h

/-- The cached index file of every mirror collected for removal is absent
after removeLoop. -/
theorem removeLoop_file_removed (root : String) (items : List (String × CacheEntry))
    (st : CacheState) {url0 : String} {ce0 : CacheEntry}
    (hmem : (url0, ce0) ∈ items) :
    alookup (pathJoin root ce0.index_path) (removeLoop root items st).file_cache = none := by
  induction items generalizing st with
  | nil => cases hmem
  | cons hd rest ih =>
    obtain ⟨url, ce⟩ := hd
    cases hmem with
    | head =>
      simp only [removeLoop]
      apply removeLoop_file_none
      exact alookup_aremove_self _ _
    | tail _ h3 =>
      simp only [removeLoop]
      exact ih _ h3

/-- Events already issued persist through newFetchLoop. -/
theorem newFetchLoop_events_mono (H : String → String) (root : String) (remote : Remote)
    (urls : List String) (st : CacheState) (evs : List FetchEvent)
    {e : FetchEvent} (he : e ∈ evs) :
    e ∈ (newFetchLoop H root remote urls st evs).2 := by
  induction urls generalizing st evs with
  | nil => exact he
  | cons url rest ih =>
    simp only [newFetchLoop]
    cases hl : alookup url st.local_index_cache with
    | some ce => exact ih st evs he
    | none =>
      exact ih (fetch_and_cache_index H root remote st url none).1
        (evs ++ (fetch_and_cache_index H root remote st url none).2)
        (List.mem_append_left _ he)

/-- A mirror whose entry is present keeps exactly that entry through
newFetchLoop. -/
theorem newFetchLoop_lookup_pres (H : String → String) (root : String) (remote : Remote)
    (urls : List String) (st : CacheState) (evs : List FetchEvent)
    {url0 : String} {ce : CacheEntry}
    (h : alookup url0 st.local_index_cache = some ce) :
    alookup url0 (newFetchLoop H root remote urls st evs).1.local_index_cache = some ce := by
  induction urls generalizing st evs with
  | nil => exact h
  | cons url rest ih =>
    simp only [newFetchLoop]
    cases hl : alookup url st.local_index_cache with
    | some ce2 => exact ih st evs h
    | none =>
      have hne : url0 ≠ url := by
        intro hh
        rw [hh] at h
        rw [h] at hl
        cases hl
      refine ih _ _ ?_
      rw [faci_lookup_ne H root remote st url none hne]
      exact h

/-- No index fetch is issued by newFetchLoop for a mirror whose entry is
present. -/
theorem newFetchLoop_no_index_fetch (H : String → String) (root : String) (remote : Remote)
    (urls : List String) (st : CacheState) (evs : List FetchEvent)
    {url0 : String} {ce : CacheEntry}
    (h : alookup url0 st.local_index_cache = some ce)
    (hevs : FetchEvent.fetchIndex url0 ∉ evs) :
    FetchEvent.fetchIndex url0 ∉ (newFetchLoop H root remote urls st evs).2 := by
  induction urls generalizing st evs with
  | nil => exact hevs
  | cons url rest ih =>
    simp only [newFetchLoop]
    cases hl : alookup url st.local_index_cache with
    | some ce2 => exact ih st evs h hevs
    | none =>
      have hne : url0 ≠ url := by
        intro hh
        rw [hh] at h
        rw [h] at hl
        cases hl
      refine ih _ _ ?_ ?_
      · rw [faci_lookup_ne H root remote st url none hne]
        exact h
      · intro hmem
        rcases List.mem_append.mp hmem with hmem | hmem
        · exact hevs hmem
        · rcases faci_event_mem H root remote st url none hmem with h2 | h2
          · cases h2
          · injection h2 with h3
            exact hne h3

/-- A mirror absent from the cache, different from every processed url,
stays absent through newFetchLoop. -/
theorem newFetchLoop_lookup_none (H : String → String) (root : String) (remote : Remote)
    (urls : List String) (st : CacheState) (evs : List FetchEvent)
    {url0 : String}
    (hu : ∀ u, u ∈ urls → u ≠ url0)
    (h : alookup url0 st.local_index_cache = none) :
    alookup url0 (newFetchLoop H root remote urls st evs).1.local_index_cache = none := by
  induction urls generalizing st evs with
  | nil => exact h
  | cons url rest ih =>
    have hu2 : ∀ u, u ∈ rest → u ≠ url0 := fun u hm => hu u (List.mem_cons_of_mem _ hm)
    have hne : url0 ≠ url := fun hh => (hu url (List.mem_cons_self _ _)) hh.symm
    simp only [newFetchLoop]
    cases hl : alookup url st.local_index_cache with
    | some ce2 => exact ih st evs hu2 h
    | none =>
      refine ih _ _ hu2 ?_
      rw [faci_lookup_ne H root remote st url none hne]
      exact h

/-- A configured mirror with no cache entry gets a fresh entry recorded by
newFetchLoop when the remote index and its hash sidecar are consistent. -/
theorem newFetchLoop_fetches_new (H : String → String) (root : String) (remote : Remote)
    (urls : List String) (st : CacheState) (evs : List FetchEvent)
    {url0 : String} {b : String}
    (hmem : url0 ∈ urls)
    (hnone : alookup url0 st.local_index_cache = none)
    (hh : remote.read_hash_file url0 = some (H b))
    (hb : remote.read_index_file url0 = some b) :
    alookup url0 (newFetchLoop H root remote urls st evs).1.local_index_cache
      = some { index_hash := H b, index_path := indexCacheKey (H b) } := by
  induction urls generalizing st evs with
  | nil => cases hmem
  | cons url rest ih =>
    by_cases hu : url = url0
    · subst hu
      simp only [newFetchLoop, hnone]
      have hstep : alookup url (fetch_and_cache_index H root remote st url none).1.local_index_cache
          = some { index_hash := H b, index_path := indexCacheKey (H b) } := by
        rw [faci_fetch_success H root remote st url b hh hb]
        exact alookup_aupdate_self url _ _
      exact newFetchLoop_lookup_pres H root remote rest _ _ hstep
    · simp only [newFetchLoop]
      have hmem2 : url0 ∈ rest := by
        cases hmem with
        | head => exact absurd rfl hu
        | tail _ h3 => exact h3
      cases hl : alookup url st.local_index_cache with
      | some ce2 => exact ih st evs hmem2 hnone
      | none =>
        have hne : url0 ≠ url := fun hh2 => hu hh2.symm
        refine ih _ _ hmem2 ?_
        rw [faci_lookup_ne H root remote st url none hne]
        exact hnone

/-- File-cache lookups at a path none of the processed mirrors can store
to are unchanged by newFetchLoop. -/
theorem newFetchLoop_file_pres (H : String → String) (root : String) (remote : Remote)
    (urls : List String) (st : CacheState) (evs : List FetchEvent) {p : String}
    (hp : ∀ u b, u ∈ urls → remote.read_index_file u = some b →
      pathJoin root (indexCacheKey (H b)) ≠ p) :
    alookup p (newFetchLoop H root remote urls st evs).1.file_cache
      = alookup p st.file_cache := by
  induction urls generalizing st evs with
  | nil => rfl
  | cons url rest ih =>
    have hp2 : ∀ u b, u ∈ rest → remote.read_index_file u = some b →
        pathJoin root (indexCacheKey (H b)) ≠ p :=
      fun u b hm => hp u b (List.mem_cons_of_mem _ hm)
    simp only [newFetchLoop]
    cases hl : alookup url st.local_index_cache with
    | some ce2 => exact ih st evs hp2
    | none =>
      rw [ih _ _ hp2]
      exact faci_file_other H root remote st url none
        (fun b hb => hp url b (List.mem_cons_self _ _) hb)

/-- C2: update_local_index_cache reconciles the cached mirror set against
the configured mirror set.  (1) A cached mirror no longer configured has
its entry deleted and, provided no configured mirror's fetched index body
stores to the same file path, its cached index file deleted.  (2) A cached
mirror still configured is refreshed via fetch_and_cache_index with the
recorded hash as expect_hash: the hash sidecar is read, and when it still
equals the nonempty recorded hash the entry is kept unchanged and the full
index is not re-fetched.  (3) A configured mirror with no cache entry gets
a new entry fetched and cached (when the remote index and sidecar are
consistent).  (4) The resulting index-of-indices is persisted to disk. -/
theorem update_local_index_cache_reconciles
    (H : String → String) (root : String) (remote : Remote)
    (configured : List String) (st : CacheState)
    (hnd : (st.local_index_cache.map Prod.fst).Nodup) :
    (∀ url ce, (url, ce) ∈ st.local_index_cache → configured.contains url = false →
      alookup url (update_local_index_cache H root remote configured st).1.local_index_cache
          = none ∧
        ((∀ u b, u ∈ configured → remote.read_index_file u = some b →
            pathJoin root (indexCacheKey (H b)) ≠ pathJoin root ce.index_path) →
          alookup (pathJoin root ce.index_path)
            (update_local_index_cache H root remote configured st).1.file_cache = none)) ∧
    (∀ url ce, (url, ce) ∈ st.local_index_cache → configured.contains url = true →
      ce.index_hash ≠ "" → remote.read_hash_file url = some ce.index_hash →
      alookup url (update_local_index_cache H root remote configured st).1.local_index_cache
          = some ce ∧
        FetchEvent.fetchIndex url ∉ (update_local_index_cache H root remote configured st).2 ∧
        FetchEvent.fetchHash url ∈ (update_local_index_cache H root remote configured st).2) ∧
    (∀ url b, url ∈ configured → alookup url st.local_index_cache = none →
      remote.read_hash_file url = some (H b) → remote.read_index_file url = some b →
      alookup url (update_local_index_cache H root remote configured st).1.local_index_cache
        = some { index_hash := H b, index_path := indexCacheKey (H b) }) ∧
    (update_local_index_cache H root remote configured st).1.persisted
      = some (update_local_index_cache H root remote configured st).1.local_index_cache := by
  have hcache : (update_local_index_cache H root remote configured st).1.local_index_cache
      = (newFetchLoop H root remote configured
          (removeLoop root
            (st.local_index_cache.filter (fun e => !(configured.contains e.1)))
            (refreshLoop H root remote configured st.local_index_cache st []).1)
          (refreshLoop H root remote configured st.local_index_cache st []).2).1.local_index_cache := rfl
  have hfile : (update_local_index_cache H root remote configured st).1.file_cache
      = (newFetchLoop H root remote configured
          (removeLoop root
            (st.local_index_cache.filter (fun e => !(configured.contains e.1)))
            (refreshLoop H root remote configured st.local_index_cache st []).1)
          (refreshLoop H root remote configured st.local_index_cache st []).2).1.file_cache := rfl
  have hev : (update_local_index_cache H root remote configured st).2
      = (newFetchLoop H root remote configured
          (removeLoop root
            (st.local_index_cache.filter (fun e => !(configured.contains e.1)))
            (refreshLoop H root remote configured st.local_index_cache st []).1)
          (refreshLoop H root remote configured st.local_index_cache st []).2).2 := rfl
  refine ⟨?_, ?_, ?_, rfl⟩
  · -- (1) stale mirrors removed
    intro url ce hmem hc
    have hitems : (url, ce) ∈
        st.local_index_cache.filter (fun e => !(configured.contains e.1)) := by
      refine List.mem_filter.mpr ⟨hmem, ?_⟩
      rw [hc]
      rfl
    have hnotcfg : ∀ u, u ∈ configured → u ≠ url := by
      intro u hu heq
      rw [heq] at hu
      have h2 : configured.contains url = true := List.elem_eq_true_of_mem hu
      rw [hc] at h2
      cases h2
    constructor
    · rw [hcache]
      apply newFetchLoop_lookup_none _ _ _ _ _ _ hnotcfg
      exact removeLoop_removes _ _ _ hitems
    · intro hnc
      rw [hfile]
      rw [newFetchLoop_file_pres _ _ _ _ _ _
        (fun u b hu hb => hnc u b hu hb)]
      exact removeLoop_file_removed _ _ _ hitems
  · -- (2) still-configured mirrors refreshed, not re-fetched when current
    intro url ce hmem hc hne hh
    have hlook0 : alookup url st.local_index_cache = some ce := alookup_mem_nodup hmem hnd
    have hok : ∀ ce2, (url, ce2) ∈ st.local_index_cache → configured.contains url = false ∨
        (ce2.index_hash ≠ "" ∧ remote.read_hash_file url = some ce2.index_hash) := by
      intro ce2 hm2
      have : some ce2 = some ce := by
        rw [← alookup_mem_nodup hm2 hnd, hlook0]
      injection this with h3
      rw [h3]
      exact Or.inr ⟨hne, hh⟩
    have h1 : alookup url (refreshLoop H root remote configured
        st.local_index_cache st []).1.local_index_cache = some ce := by
      rw [refreshLoop_lookup H root remote configured st.local_index_cache st [] hok]
      exact hlook0
    have hnotitems : ∀ ce2, (url, ce2) ∉
        st.local_index_cache.filter (fun e => !(configured.contains e.1)) := by
      intro ce2 hm2
      have h4 := (List.mem_filter.mp hm2).2
      rw [hc] at h4
      cases h4
    have h2 : alookup url (removeLoop root
        (st.local_index_cache.filter (fun e => !(configured.contains e.1)))
        (refreshLoop H root remote configured st.local_index_cache st []).1).local_index_cache
        = some ce := by
      rw [removeLoop_lookup_notmem _ _ _ hnotitems]
      exact h1
    have e1 : FetchEvent.fetchIndex url ∉ (refreshLoop H root remote configured
        st.local_index_cache st []).2 :=
      refreshLoop_no_index_fetch H root remote configured st.local_index_cache st [] hok
        (by simp)
    refine ⟨?_, ?_, ?_⟩
    · rw [hcache]
      exact newFetchLoop_lookup_pres _ _ _ _ _ _ h2
    · rw [hev]
      exact newFetchLoop_no_index_fetch _ _ _ _ _ _ h2 e1
    · rw [hev]
      exact newFetchLoop_events_mono _ _ _ _ _ _
        (refreshLoop_hash_fetched H root remote configured st.local_index_cache st [] hmem hc)
  · -- (3) newly configured mirrors fetched and cached
    intro url b hu hnone hh hb
    have hok : ∀ ce2, (url, ce2) ∈ st.local_index_cache → configured.contains url = false ∨
        (ce2.index_hash ≠ "" ∧ remote.read_hash_file url = some ce2.index_hash) := by
      intro ce2 hm2
      exact absurd hnone (alookup_ne_none_of_mem hm2)
    have h1 : alookup url (refreshLoop H root remote configured
        st.local_index_cache st []).1.local_index_cache = none := by
      rw [refreshLoop_lookup H root remote configured st.local_index_cache st [] hok]
      exact hnone
    have hnotitems : ∀ ce2, (url, ce2) ∉
        st.local_index_cache.filter (fun e => !(configured.contains e.1)) := by
      intro ce2 hm2
      exact absurd hnone (alookup_ne_none_of_mem (List.mem_filter.mp hm2).1)
    have h2 : alookup url (removeLoop root
        (st.local_index_cache.filter (fun e => !(configured.contains e.1)))
        (refreshLoop H root remote configured st.local_index_cache st []).1).local_index_cache
        = none := by
      rw [removeLoop_lookup_notmem _ _ _ hnotitems]
      exact h1
    rw [hcache]
    exact newFetchLoop_fetches_new _ _ _ _ _ _ hu h2 hh hb

/-- Concrete transport for the C2 witness: mirror B's sidecar still holds
the recorded hash, mirror C serves a fresh index consistent with its
sidecar, mirror A is gone from the configuration. -/
def wRemoteC2 : Remote :=
  { read_hash_file := fun u => if u = "B" then some "hb" else if u = "C" then some "ic" else none,
    read_index_file := fun u => if u = "C" then some "ic" else none }

/-- Concrete initial cache state for the C2 witness: entries for mirrors A
and B with their cached index files. -/
def wStateC2 : CacheState :=
  { local_index_cache :=
      [("A", { index_hash := "ha", index_path := "index_ha.json" }),
       ("B", { index_hash := "hb", index_path := "index_hb.json" })],
    file_cache :=
      [(pathJoin "/r" "index_ha.json", "ia"), (pathJoin "/r" "index_hb.json", "ib")],
    built_spec_cache_invalid := false,
    persisted := none }

/-- Witness for C2 at the spec's reconciliation example: cached mirrors
{A, B}, configured mirrors {B, C}; A's entry and file are removed, B's
entry is kept, C's entry is newly cached. -/
theorem update_local_index_cache_reconciles_w :
    alookup "A" (update_local_index_cache (fun s => s) "/r" wRemoteC2 ["B", "C"]
        wStateC2).1.local_index_cache = none ∧
    alookup (pathJoin "/r" "index_ha.json") (update_local_index_cache (fun s => s) "/r"
        wRemoteC2 ["B", "C"] wStateC2).1.file_cache = none ∧
    alookup "B" (update_local_index_cache (fun s => s) "/r" wRemoteC2 ["B", "C"]
        wStateC2).1.local_index_cache
      = some { index_hash := "hb", index_path := "index_hb.json" } ∧
    alookup "C" (update_local_index_cache (fun s => s) "/r" wRemoteC2 ["B", "C"]
        wStateC2).1.local_index_cache
      = some { index_hash := "ic", index_path := "index_ic.json" } := by
  have h := update_local_index_cache_reconciles (fun s => s) "/r" wRemoteC2 ["B", "C"]
    wStateC2 (by decide)
  have hA := h.1 "A" { index_hash := "ha", index_path := "index_ha.json" }
    (by decide) (by decide)
  have hnc : ∀ u b, u ∈ ["B", "C"] → wRemoteC2.read_index_file u = some b →
      pathJoin "/r" (indexCacheKey ((fun s : String => s) b))
        ≠ pathJoin "/r" "index_ha.json" := by
    intro u b hu hb
    have hu2 : u = "B" ∨ u = "C" := by simpa using hu
    rcases hu2 with h2 | h2
    · subst h2
      have hnone : wRemoteC2.read_index_file "B" = none := rfl
      rw [hnone] at hb
      cases hb
    · subst h2
      have hsome : wRemoteC2.read_index_file "C" = some "ic" := rfl
      rw [hsome] at hb
      injection hb with hb2
      subst hb2
      decide
  refine ⟨hA.1, hA.2 hnc, ?_, ?_⟩
  · exact (h.2.1 "B" { index_hash := "hb", index_path := "index_hb.json" }
      (by decide) (by decide) (by decide) (by decide)).1
  · exact h.2.2.1 "C" "ic" (by decide) (by decide) (by decide) (by decide)

/-- A concrete built spec as stored in the spec cache: enough identity to
model dag_hash and full_hash based decisions. -/
structure BSpec where
  name : String
  dag_hash : String
  full_hash : String
deriving DecidableEq, Repr

/-- One element of a found_list / built_spec_cache bucket: the mirror that
hosts the archive and the concrete spec parsed from it. -/
structure FoundEntry where
  mirror_url : String
  spec : BSpec
deriving DecidableEq, Repr

/-- Python runtime error raised by the embedded code. -/
inductive PyErr
  | attributeError
deriving DecidableEq, Repr

/-- Replace the spec of the first entry with the given mirror_url
(cur_entry['spec'] = new_entry['spec'] followed by break). -/
def replace_first_spec : List FoundEntry → FoundEntry → List FoundEntry
  | [], _ => []
  | c :: rest, n =>
    if c.mirror_url = n.mirror_url then { c with spec := n.spec } :: rest
    else c :: replace_first_spec rest n

/-- The inner merge loop of BinaryDistributionCacheManager.update_spec.
For each new entry: if some current entry has the same mirror_url, its
spec is replaced (first match, then break).  Otherwise the source executes
current_list.append = dict(...) in the loop's else clause - an assignment
to the list attribute append instead of a call, which raises
AttributeError at runtime; mutations applied before the error persist. -/
def merge_found : List FoundEntry → List FoundEntry → List FoundEntry × Option PyErr
  | current, [] => (current, none)
  | current, n :: rest =>
    if current.any (fun c => c.mirror_url == n.mirror_url) then
      merge_found (replace_first_spec current n) rest
    else (current, some PyErr.attributeError)

/-- Model of BinaryDistributionCacheManager.update_spec: when the spec's
dag_hash has no bucket, the whole found_list becomes the bucket; otherwise
the found entries are merged into the existing bucket by merge_found. -/
def update_spec (cache : List (String × List FoundEntry)) (s : BSpec)
    (found_list : List FoundEntry) : List (String × List FoundEntry) × Option PyErr :=
  match alookup s.dag_hash cache with
  | none => (aupdate s.dag_hash found_list cache, none)
  | some current =>
    let r := merge_found current found_list
    (aupdate s.dag_hash r.1 cache, r.2)

/-- C3: the merge semantics of update_spec are broken for the append case.
At a concrete input where the cached bucket for the spec's dag_hash holds
an entry for mirror m1 and the found_list holds an entry for a new mirror
m2, the claimed append does not happen: the source line
current_list.append = dict(...) assigns to the read-only list attribute
append instead of calling it, so update_spec raises AttributeError and the
new mirror's entry is never added to the bucket. -/
theorem update_spec_append_attribute_error :
    update_spec
      [("h1", [{ mirror_url := "m1", spec := { name := "p", dag_hash := "h1", full_hash := "f1" } }])]
      { name := "p", dag_hash := "h1", full_hash := "f1" }
      [{ mirror_url := "m2", spec := { name := "p", dag_hash := "h1", full_hash := "f1" } }]
    = ([("h1", [{ mirror_url := "m1", spec := { name := "p", dag_hash := "h1", full_hash := "f1" } }])],
       some PyErr.attributeError) := by
  decide

/-- Model of needs_rebuild.  The concrete-spec guard raises ValueError
(modelled as the error case).  fetched is the text read from the remote
spec.yaml (none models URLError / SpackWebError); parse_full_hash is the
yaml-parsing oracle returning the document's full_hash entry, none when
the key is absent.  On a fetch error or empty content the caller-supplied
rebuild_on_errors policy value is returned; otherwise the result is True
exactly when full_hash is missing from the remote document or differs
from the local spec's full_hash. -/
def needs_rebuild (spec_concrete : Bool) (pkg_full_hash : String)
    (fetched : Option String) (parse_full_hash : String → Option String)
    (rebuild_on_errors : Bool) : Except Unit Bool :=
  if spec_concrete = false then Except.error ()
  else
    match fetched with
    | none => Except.ok rebuild_on_errors
    | some contents =>
      if contents = "" then Except.ok rebuild_on_errors
      else
        match parse_full_hash contents with
        | none => Except.ok true
        | some fh => Except.ok (fh != pkg_full_hash)

/-- C7: for a concrete spec, needs_rebuild returns the rebuild_on_errors
policy value when the remote spec.yaml cannot be fetched or is empty, and
otherwise returns True exactly when the remote document lacks a full_hash
entry or that entry differs from the local full_hash. -/
theorem needs_rebuild_policy (pkg_full_hash : String)
    (fetched : Option String) (parse_full_hash : String → Option String)
    (rebuild_on_errors : Bool) :
    ((fetched = none ∨ fetched = some "") →
      needs_rebuild true pkg_full_hash fetched parse_full_hash rebuild_on_errors
        = Except.ok rebuild_on_errors) ∧
    (∀ c, fetched = some c → c ≠ "" →
      (needs_rebuild true pkg_full_hash fetched parse_full_hash rebuild_on_errors
          = Except.ok true
        ↔ (parse_full_hash c = none ∨ parse_full_hash c ≠ some pkg_full_hash))) := by
  constructor
  · intro h
    rcases h with h | h <;> rw [h] <;> simp [needs_rebuild]
  · intro c hc hne
    rw [hc]
    simp only [needs_rebuild, if_false, Bool.false_eq_true]
    rw [if_neg (by exact fun hh => absurd hh (by simp))]
    rw [if_neg hne]
    cases hp : parse_full_hash c with
    | none => simp
    | some fh =>
      constructor
      · intro h
        simp only [Except.ok.injEq, bne_iff_ne] at h
        right
        intro h2
        injection h2 with h3
        exact h h3
      · intro h
        rcases h with h | h
        · cases h
        · have hne2 : fh ≠ pkg_full_hash := fun hh => h (by rw [hh])
          simp [bne_iff_ne, hne2]

/-- Witness for C7 at concrete inputs: a fetch error yields the policy
value, and a fetched document whose full_hash differs yields True. -/
theorem needs_rebuild_policy_w :
    needs_rebuild true "f1" none (fun _ => some "f2") false = Except.ok false ∧
    (needs_rebuild true "f1" (some "doc") (fun _ => some "f2") false = Except.ok true
      ↔ ((fun _ : String => some "f2") "doc" = none ∨
         (fun _ : String => some "f2") "doc" ≠ some "f1")) := by
  constructor
  · exact (needs_rebuild_policy "f1" none (fun _ => some "f2") false).1 (Or.inl rfl)
  · exact (needs_rebuild_policy "f1" (some "doc") (fun _ => some "f2") false).2
      "doc" rfl (by decide)

/-- Errors raised by sign_tarball. -/
inductive SignErr
  | noGpg
  | pickKey
  | noKey
  | noOverwriteAsc
deriving DecidableEq, Repr

/-- Inputs of sign_tarball: availability of the gpg2 binary, the signing
identities Gpg.signing_keys() reports, the explicitly supplied key (none
when the caller picked no key), the force flag, and whether a detached
signature file already exists next to the spec file. -/
structure SignArgs where
  gpg_available : Bool
  signing_keys : List String
  key : Option String
  force : Bool
  asc_exists : Bool
deriving DecidableEq, Repr

/-- Result of a successful sign_tarball: the key used and whether a
pre-existing signature file was removed first. -/
structure SignOutcome where
  key_used : String
  removed_old_asc : Bool
deriving DecidableEq, Repr

/-- Tail of sign_tarball once a key is determined: overwrite handling for
an existing .asc file, then Gpg.sign. -/
def sign_with_key (a : SignArgs) (k : String) : Except SignErr SignOutcome :=
  if a.asc_exists then
    if a.force then Except.ok { key_used := k, removed_old_asc := true }
    else Except.error SignErr.noOverwriteAsc
  else Except.ok { key_used := k, removed_old_asc := false }

/-- Model of sign_tarball: raises NoGpgException when gpg2 is missing;
with no explicit key, uses the single signing identity when there is
exactly one, raises PickKeyException when there are several and
NoKeyException when there are none.  Only then is the signature written. -/
def sign_tarball (a : SignArgs) : Except SignErr SignOutcome :=
  if a.gpg_available = false then Except.error SignErr.noGpg
  else
    match a.key with
    | some k => sign_with_key a k
    | none =>
      if a.signing_keys.length = 1 then sign_with_key a (a.signing_keys.headD "")
      else if 1 < a.signing_keys.length then Except.error SignErr.pickKey
      else Except.error SignErr.noKey

/-- Errors surfaced by build_tarball: the ValueError on a non-concrete
spec, NoOverwriteException for an existing remote file without force, the
tty.die on a relocatability failure, a signing failure, and a transport
error while pushing to the mirror. -/
inductive BuildErr
  | valueError
  | noOverwriteRemote
  | dieNotRelocatable
  | signFailed (e : SignErr)
  | pushFailed
deriving DecidableEq, Repr

/-- Inputs of build_tarball.  relocatable_ok abstracts the outcome of
make_package_relative / check_package_relocatable (which consume the
allow_root flag); push_ok abstracts the mirror transport accepting the
two push_to_url calls; spackfile_url and specfile_url are the remote
destinations computed from the spec's tarball names. -/
structure BuildArgs where
  spec_concrete : Bool
  force : Bool
  rel : Bool
  unsigned : Bool
  relocatable_ok : Bool
  gpg_available : Bool
  signing_keys : List String
  key : Option String
  push_ok : Bool
  regenerate_index : Bool
  spackfile_url : String
  specfile_url : String
deriving DecidableEq, Repr

/-- Observable outcome of build_tarball: the set of files present on the
mirror, whether the temporary scratch directory created by
tempfile.mkdtemp still exists when the call returns or the exception
propagates, and the error if one was raised. -/
structure BuildResult where
  remote_files : List String
  tmpdir_present : Bool
  err : Option BuildErr
deriving DecidableEq, Repr

/-- web_util.remove_url on the model of the remote file set. -/
def removeUrl (l : List String) (u : String) : List String :=
  l.filter (fun x => x != u)

/-- Final stage of build_tarball: push the .spack archive and the spec
file to the mirror, optionally regenerate the index, and remove the
scratch directory in the finally block around that regeneration. -/
def build_tarball_push (a : BuildArgs) (remote : List String) : BuildResult :=
  if a.push_ok = false then
    { remote_files := remote, tmpdir_present := true, err := some BuildErr.pushFailed }
  else
    { remote_files := remote ++ [a.spackfile_url, a.specfile_url],
      tmpdir_present := false, err := none }

/-- The SignArgs build_tarball passes to sign_tarball: the spec file was
just written into a fresh scratch directory, so no .asc exists there. -/
def buildSignArgs (a : BuildArgs) : SignArgs :=
  { gpg_available := a.gpg_available, signing_keys := a.signing_keys,
    key := a.key, force := a.force, asc_exists := false }

/-- The if web_util.url_exists block of build_tarball for one remote
destination: an existing file is removed under force and raises
NoOverwriteException otherwise. -/
def overwrite_check (force : Bool) (url : String) (remote : List String) :
    Except BuildErr (List String) :=
  if remote.contains url && !force then Except.error BuildErr.noOverwriteRemote
  else if remote.contains url then Except.ok (removeUrl remote url)
  else Except.ok remote

/-- Model of build_tarball.  The steps follow the source order: concrete
check, scratch directory creation, remote overwrite checks for the .spack
archive and the spec file (removal under force, NoOverwriteException
otherwise), relocatability processing (whose failure removes the scratch
tree and dies), optional signing, and the pushes with the final
regenerate-index / cleanup block.  Only the normal return, the ValueError
raised before the scratch directory exists, and the relocatability
failure leave no scratch directory behind. -/
def build_tarball (a : BuildArgs) (remote0 : List String) : BuildResult :=
  if a.spec_concrete = false then
    { remote_files := remote0, tmpdir_present := false, err := some BuildErr.valueError }
  else
    match overwrite_check a.force a.spackfile_url remote0 with
    | Except.error e =>
      { remote_files := remote0, tmpdir_present := true, err := some e }
    | Except.ok remote1 =>
      match overwrite_check a.force a.specfile_url remote1 with
      | Except.error e =>
        { remote_files := remote1, tmpdir_present := true, err := some e }
      | Except.ok remote2 =>
        if a.relocatable_ok = false then
          { remote_files := remote2, tmpdir_present := false,
            err := some BuildErr.dieNotRelocatable }
        else
          if a.unsigned = false then
            match sign_tarball (buildSignArgs a) with
            | Except.error e =>
              { remote_files := remote2, tmpdir_present := true,
                err := some (BuildErr.signFailed e) }
            | Except.ok _ => build_tarball_push a remote2
          else build_tarball_push a remote2

/-- removeUrl removes every copy of the removed url. -/
theorem contains_removeUrl_self (l : List String) (u : String) :
    (removeUrl l u).contains u = false := by
  cases h : (removeUrl l u).contains u
  · rfl
  · exfalso
    have hm : u ∈ removeUrl l u := List.mem_of_elem_eq_true h
    have h2 := (List.mem_filter.mp hm).2
    simp at h2

/-- removeUrl does not add urls. -/
theorem contains_removeUrl_other (l : List String) (u v : String)
    (h : l.contains u = false) : (removeUrl l v).contains u = false := by
  cases h2 : (removeUrl l v).contains u
  · rfl
  · exfalso
    have hm : u ∈ removeUrl l v := List.mem_of_elem_eq_true h2
    have h3 : l.contains u = true := List.elem_eq_true_of_mem (List.mem_filter.mp hm).1
    rw [h3] at h
    cases h

/-- After the conditional erase step the erased url is gone. -/
theorem contains_after_erase (l : List String) (u : String) :
    ((if l.contains u then removeUrl l u else l).contains u) = false := by
  by_cases h : l.contains u = true
  · rw [if_pos h]
    exact contains_removeUrl_self l u
  · rw [if_neg h]
    cases h2 : l.contains u
    · rfl
    · exact absurd h2 h

/-- The conditional erase of another url cannot resurrect an absent one. -/
theorem contains_after_erase_other (l : List String) (u v : String)
    (h : l.contains u = false) :
    ((if l.contains v then removeUrl l v else l).contains u) = false := by
  by_cases h2 : l.contains v = true
  · rw [if_pos h2]
    exact contains_removeUrl_other l u v h
  · rw [if_neg h2]
    exact h

/-- With the force flag the overwrite check never raises and leaves the
destination url absent. -/
theorem overwrite_check_force (url : String) (remote : List String) :
    overwrite_check true url remote
      = Except.ok (if remote.contains url then removeUrl remote url else remote) := by
  simp only [overwrite_check, Bool.not_true, Bool.and_false]
  rw [if_neg (by simp)]
  rw [apply_ite Except.ok]

/-- An absent destination passes the overwrite check unchanged. -/
theorem overwrite_check_absent (f : Bool) (url : String) (remote : List String)
    (h : remote.contains url = false) :
    overwrite_check f url remote = Except.ok remote := by
  simp only [overwrite_check, h, Bool.false_and]
  rw [if_neg (by simp)]
  rw [if_neg (by simp)]

/-- An existing destination without force raises NoOverwriteException. -/
theorem overwrite_check_blocked (url : String) (remote : List String)
    (h : remote.contains url = true) :
    overwrite_check false url remote = Except.error BuildErr.noOverwriteRemote := by
  simp only [overwrite_check, h, Bool.not_false, Bool.true_and]
  rw [if_pos trivial]

/-- The only error the overwrite check raises is NoOverwriteException. -/
theorem overwrite_check_err_shape {f : Bool} {url : String} {remote : List String}
    {e : BuildErr} (h : overwrite_check f url remote = Except.error e) :
    e = BuildErr.noOverwriteRemote := by
  simp only [overwrite_check] at h
  split at h
  · injection h with h2
    exact h2.symm
  · split at h <;> cases h

/-- An overwrite check that succeeds leaves the checked url absent. -/
theorem overwrite_check_ok_absent {f : Bool} {url : String} {remote r : List String}
    (h : overwrite_check f url remote = Except.ok r) : r.contains url = false := by
  simp only [overwrite_check] at h
  split at h
  · cases h
  · split at h
    · injection h with h2
      rw [← h2]
      exact contains_removeUrl_self _ _
    · next hcond =>
      injection h with h2
      rw [← h2]
      cases h3 : remote.contains url
      · rfl
      · exact absurd h3 hcond

/-- A successful overwrite check cannot add urls. -/
theorem overwrite_check_ok_mono {f : Bool} {url : String} {remote r : List String}
    (h : overwrite_check f url remote = Except.ok r)
    {v : String} (hv : remote.contains v = false) : r.contains v = false := by
  simp only [overwrite_check] at h
  split at h
  · cases h
  · split at h
    · injection h with h2
      rw [← h2]
      exact contains_removeUrl_other _ _ _ hv
    · injection h with h2
      rw [← h2]
      exact hv

/-- When the pushes succeed, build_tarball_push publishes the archive and
the spec file and removes the scratch directory. -/
theorem build_tarball_push_ok (a : BuildArgs) (X : List String)
    (hpush : a.push_ok = true) :
    build_tarball_push a X
      = { remote_files := X ++ [a.spackfile_url, a.specfile_url],
          tmpdir_present := false, err := none } := by
  simp only [build_tarball_push, hpush, Bool.true_eq_false, if_false]

/-- The first of two appended urls is present. -/
theorem contains_append_pair_left (l : List String) (x y : String) :
    (l ++ [x, y]).contains x = true :=
  List.elem_eq_true_of_mem (List.mem_append_right l (List.mem_cons_self x [y]))

/-- The second of two appended urls is present. -/
theorem contains_append_pair_right (l : List String) (x y : String) :
    (l ++ [x, y]).contains y = true :=
  List.elem_eq_true_of_mem
    (List.mem_append_right l (List.mem_cons_of_mem x (List.mem_cons_self y [])))

/-- When both overwrite checks pass, relocation succeeds and the archive
is signed (or signing is disabled), build_tarball reaches the push
stage. -/
theorem build_tarball_ok_reduces (a : BuildArgs) (remote0 r1 r2 : List String)
    (hc : a.spec_concrete = true)
    (h1 : overwrite_check a.force a.spackfile_url remote0 = Except.ok r1)
    (h2 : overwrite_check a.force a.specfile_url r1 = Except.ok r2)
    (hrel : a.relocatable_ok = true)
    (hsign : a.unsigned = true ∨ ∃ o, sign_tarball (buildSignArgs a) = Except.ok o) :
    build_tarball a remote0 = build_tarball_push a r2 := by
  simp only [build_tarball, hc, Bool.true_eq_false, if_false, h1, h2, hrel]
  rcases hsign with hu | ⟨o, ho⟩
  · simp only [hu, Bool.true_eq_false, if_false]
  · by_cases hu : a.unsigned = true
    · simp only [hu, Bool.true_eq_false, if_false]
    · have hu2 : a.unsigned = false := by
        cases h3 : a.unsigned
        · rfl
        · exact absurd h3 hu
      simp only [hu2, eq_self_iff_true, if_true, ho]

/-- When both overwrite checks pass and relocation succeeds but signing
fails, build_tarball stops with the signing error and the scratch
directory still present. -/
theorem build_tarball_sign_error_reduces (a : BuildArgs) (remote0 r1 r2 : List String)
    (hc : a.spec_concrete = true)
    (h1 : overwrite_check a.force a.spackfile_url remote0 = Except.ok r1)
    (h2 : overwrite_check a.force a.specfile_url r1 = Except.ok r2)
    (hrel : a.relocatable_ok = true) (hsig : a.unsigned = false)
    (e : SignErr) (he : sign_tarball (buildSignArgs a) = Except.error e) :
    build_tarball a remote0
      = { remote_files := r2, tmpdir_present := true,
          err := some (BuildErr.signFailed e) } := by
  simp only [build_tarball, hc, Bool.true_eq_false, if_false, h1, h2, hrel, hsig,
    eq_self_iff_true, if_true, he]

/-- C6: with an archive or spec file already at the destination and
force=False, build_tarball raises NoOverwriteException and publishes
nothing (the remote is untouched); with force=True it removes the
existing remote files and, when the remaining steps succeed, publishes
the new archive and spec file in their place. -/
theorem build_tarball_overwrite_policy (a : BuildArgs) (remote0 : List String)
    (hc : a.spec_concrete = true)
    (hex : remote0.contains a.spackfile_url = true ∨
      remote0.contains a.specfile_url = true) :
    (a.force = false →
      (build_tarball a remote0).err = some BuildErr.noOverwriteRemote ∧
        (build_tarball a remote0).remote_files = remote0) ∧
    (a.force = true → a.relocatable_ok = true → a.push_ok = true →
      (a.unsigned = true ∨ ∃ o, sign_tarball (buildSignArgs a) = Except.ok o) →
      (build_tarball a remote0).err = none ∧
        (build_tarball a remote0).remote_files.contains a.spackfile_url = true ∧
        (build_tarball a remote0).remote_files.contains a.specfile_url = true) := by
  constructor
  · intro hf
    by_cases hy : remote0.contains a.spackfile_url = true
    · have h1 : overwrite_check a.force a.spackfile_url remote0
          = Except.error BuildErr.noOverwriteRemote := by
        rw [hf]
        exact overwrite_check_blocked _ _ hy
      have hb : build_tarball a remote0
          = { remote_files := remote0, tmpdir_present := true,
              err := some BuildErr.noOverwriteRemote } := by
        simp only [build_tarball, hc, Bool.true_eq_false, if_false, h1]
      rw [hb]
      exact ⟨rfl, rfl⟩
    · have hy2 : remote0.contains a.spackfile_url = false := by
        cases h3 : remote0.contains a.spackfile_url
        · rfl
        · exact absurd h3 hy
      have hx : remote0.contains a.specfile_url = true := by
        rcases hex with h | h
        · exact absurd h hy
        · exact h
      have h1 : overwrite_check a.force a.spackfile_url remote0 = Except.ok remote0 :=
        overwrite_check_absent _ _ _ hy2
      have h2 : overwrite_check a.force a.specfile_url remote0
          = Except.error BuildErr.noOverwriteRemote := by
        rw [hf]
        exact overwrite_check_blocked _ _ hx
      have hb : build_tarball a remote0
          = { remote_files := remote0, tmpdir_present := true,
              err := some BuildErr.noOverwriteRemote } := by
        simp only [build_tarball, hc, Bool.true_eq_false, if_false, h1, h2]
      rw [hb]
      exact ⟨rfl, rfl⟩
  · intro hf hrel hpush hsign
    obtain ⟨r1, h1⟩ : ∃ r1, overwrite_check a.force a.spackfile_url remote0
        = Except.ok r1 :=
      ⟨if remote0.contains a.spackfile_url then removeUrl remote0 a.spackfile_url
        else remote0, by rw [hf]; exact overwrite_check_force _ _⟩
    obtain ⟨r2, h2⟩ : ∃ r2, overwrite_check a.force a.specfile_url r1
        = Except.ok r2 :=
      ⟨if r1.contains a.specfile_url then removeUrl r1 a.specfile_url else r1,
        by rw [hf]; exact overwrite_check_force _ _⟩
    rw [build_tarball_ok_reduces a remote0 r1 r2 hc h1 h2 hrel hsign,
      build_tarball_push_ok a r2 hpush]
    exact ⟨rfl, contains_append_pair_left _ _ _, contains_append_pair_right _ _ _⟩

/-- C8: during an archive build with no key explicitly supplied, signing
fails with NoGpgException when the gpg signer is unavailable, with
PickKeyException when more than one signing identity exists, and with
NoKeyException when none exists; in every one of these cases the error
propagates out of build_tarball and neither the signed archive nor the
spec file is published to the mirror. -/
theorem build_tarball_sign_failures (a : BuildArgs) (remote0 : List String)
    (hkey : a.key = none) (hc : a.spec_concrete = true)
    (hrel : a.relocatable_ok = true) (hsig : a.unsigned = false)
    (hreach : a.force = true ∨
      (remote0.contains a.spackfile_url = false ∧
        remote0.contains a.specfile_url = false)) :
    (a.gpg_available = false →
      (build_tarball a remote0).err = some (BuildErr.signFailed SignErr.noGpg) ∧
        (build_tarball a remote0).remote_files.contains a.spackfile_url = false ∧
        (build_tarball a remote0).remote_files.contains a.specfile_url = false) ∧
    (a.gpg_available = true → 1 < a.signing_keys.length →
      (build_tarball a remote0).err = some (BuildErr.signFailed SignErr.pickKey) ∧
        (build_tarball a remote0).remote_files.contains a.spackfile_url = false ∧
        (build_tarball a remote0).remote_files.contains a.specfile_url = false) ∧
    (a.gpg_available = true → a.signing_keys.length = 0 →
      (build_tarball a remote0).err = some (BuildErr.signFailed SignErr.noKey) ∧
        (build_tarball a remote0).remote_files.contains a.spackfile_url = false ∧
        (build_tarball a remote0).remote_files.contains a.specfile_url = false) := by
  obtain ⟨r1, h1, r2, h2⟩ : ∃ r1, overwrite_check a.force a.spackfile_url remote0
      = Except.ok r1 ∧ ∃ r2, overwrite_check a.force a.specfile_url r1 = Except.ok r2 := by
    rcases hreach with hf | ⟨hs1, hs2⟩
    · exact ⟨if remote0.contains a.spackfile_url then removeUrl remote0 a.spackfile_url
          else remote0,
        by rw [hf]; exact overwrite_check_force _ _,
        if (if remote0.contains a.spackfile_url then removeUrl remote0 a.spackfile_url
            else remote0).contains a.specfile_url
          then removeUrl (if remote0.contains a.spackfile_url
            then removeUrl remote0 a.spackfile_url else remote0) a.specfile_url
          else (if remote0.contains a.spackfile_url
            then removeUrl remote0 a.spackfile_url else remote0),
        by rw [hf]; exact overwrite_check_force _ _⟩
    · exact ⟨remote0, overwrite_check_absent _ _ _ hs1,
        remote0, overwrite_check_absent _ _ _ hs2⟩
  have hap : r2.contains a.spackfile_url = false :=
    overwrite_check_ok_mono h2 (overwrite_check_ok_absent h1)
  have hsp : r2.contains a.specfile_url = false := overwrite_check_ok_absent h2
  refine ⟨?_, ?_, ?_⟩
  · intro hg
    have hse : sign_tarball (buildSignArgs a) = Except.error SignErr.noGpg := by
      simp only [sign_tarball, buildSignArgs, hg, eq_self_iff_true, if_true]
    rw [build_tarball_sign_error_reduces a remote0 r1 r2 hc h1 h2 hrel hsig
      SignErr.noGpg hse]
    exact ⟨rfl, hap, hsp⟩
  · intro hg hlen
    have hse : sign_tarball (buildSignArgs a) = Except.error SignErr.pickKey := by
      simp only [sign_tarball, buildSignArgs, hg, hkey, Bool.true_eq_false, if_false]
      rw [if_neg (by omega)]
      rw [if_pos hlen]
    rw [build_tarball_sign_error_reduces a remote0 r1 r2 hc h1 h2 hrel hsig
      SignErr.pickKey hse]
    exact ⟨rfl, hap, hsp⟩
  · intro hg hlen
    have hse : sign_tarball (buildSignArgs a) = Except.error SignErr.noKey := by
      simp only [sign_tarball, buildSignArgs, hg, hkey, Bool.true_eq_false, if_false]
      rw [if_neg (by omega)]
      rw [if_neg (by omega)]
    rw [build_tarball_sign_error_reduces a remote0 r1 r2 hc h1 h2 hrel hsig
      SignErr.noKey hse]
    exact ⟨rfl, hap, hsp⟩

/-- C9 (amended): the scratch directory created by build_tarball is
removed on the normal return path, is never created before the ValueError
for a non-concrete spec, and is removed on the relocatability-failure
path; but on the overwrite-refusal, signing-failure and push-failure exit
paths the scratch directory is left behind. -/
theorem build_tarball_scratch_cleanup (a : BuildArgs) (remote0 : List String) :
    ((build_tarball a remote0).err = none →
      (build_tarball a remote0).tmpdir_present = false) ∧
    ((build_tarball a remote0).err = some BuildErr.valueError →
      (build_tarball a remote0).tmpdir_present = false) ∧
    ((build_tarball a remote0).err = some BuildErr.dieNotRelocatable →
      (build_tarball a remote0).tmpdir_present = false) ∧
    (((build_tarball a remote0).err = some BuildErr.noOverwriteRemote ∨
      (build_tarball a remote0).err = some BuildErr.pushFailed ∨
      (∃ e, (build_tarball a remote0).err = some (BuildErr.signFailed e))) →
      (build_tarball a remote0).tmpdir_present = true) := by
  simp only [build_tarball]
  split
  · simp
  · split
    · next e heq =>
      have he := overwrite_check_err_shape heq
      subst he
      simp
    · split
      · next e heq =>
        have he := overwrite_check_err_shape heq
        subst he
        simp
      · split
        · simp
        · split
          · split
            · simp
            · simp only [build_tarball_push]
              split
              · simp
              · simp
          · simp only [build_tarball_push]
            split
            · simp
            · simp

/-- Counterexample for C9 as stated: at a concrete input (an existing
remote archive, force=False) build_tarball exits with
NoOverwriteException while its scratch directory still exists, so the
scratch directory is not removed on every exit path. -/
theorem build_tarball_scratch_leak_cex :
    (build_tarball
      { spec_concrete := true, force := false, rel := false, unsigned := true,
        relocatable_ok := true, gpg_available := true, signing_keys := [],
        key := none, push_ok := true, regenerate_index := false,
        spackfile_url := "u1", specfile_url := "u2" }
      ["u1"]).err = some BuildErr.noOverwriteRemote ∧
    (build_tarball
      { spec_concrete := true, force := false, rel := false, unsigned := true,
        relocatable_ok := true, gpg_available := true, signing_keys := [],
        key := none, push_ok := true, regenerate_index := false,
        spackfile_url := "u1", specfile_url := "u2" }
      ["u1"]).tmpdir_present = true := by
  decide

/-- Witness for the amended C9 at a concrete input: a successful build
removes its scratch directory. -/
theorem build_tarball_scratch_cleanup_w :
    (build_tarball
      { spec_concrete := true, force := false, rel := false, unsigned := true,
        relocatable_ok := true, gpg_available := true, signing_keys := [],
        key := none, push_ok := true, regenerate_index := false,
        spackfile_url := "u1", specfile_url := "u2" }
      []).tmpdir_present = false :=
  (build_tarball_scratch_cleanup
    { spec_concrete := true, force := false, rel := false, unsigned := true,
      relocatable_ok := true, gpg_available := true, signing_keys := [],
      key := none, push_ok := true, regenerate_index := false,
      spackfile_url := "u1", specfile_url := "u2" }
    []).1 (by decide)

/-- Witness for C6 at concrete inputs: with the archive already on the
mirror, force=False refuses to overwrite and leaves the remote unchanged,
while force=True succeeds and republishes both files. -/
theorem build_tarball_overwrite_policy_w :
    ((build_tarball
      { spec_concrete := true, force := false, rel := false, unsigned := true,
        relocatable_ok := true, gpg_available := true, signing_keys := [],
        key := none, push_ok := true, regenerate_index := false,
        spackfile_url := "s1.spack", specfile_url := "s1.spec.yaml" }
      ["s1.spack"]).err = some BuildErr.noOverwriteRemote ∧
     (build_tarball
      { spec_concrete := true, force := false, rel := false, unsigned := true,
        relocatable_ok := true, gpg_available := true, signing_keys := [],
        key := none, push_ok := true, regenerate_index := false,
        spackfile_url := "s1.spack", specfile_url := "s1.spec.yaml" }
      ["s1.spack"]).remote_files = ["s1.spack"]) ∧
    ((build_tarball
      { spec_concrete := true, force := true, rel := false, unsigned := true,
        relocatable_ok := true, gpg_available := true, signing_keys := [],
        key := none, push_ok := true, regenerate_index := false,
        spackfile_url := "s1.spack", specfile_url := "s1.spec.yaml" }
      ["s1.spack"]).err = none ∧
     (build_tarball
      { spec_concrete := true, force := true, rel := false, unsigned := true,
        relocatable_ok := true, gpg_available := true, signing_keys := [],
        key := none, push_ok := true, regenerate_index := false,
        spackfile_url := "s1.spack", specfile_url := "s1.spec.yaml" }
      ["s1.spack"]).remote_files.contains "s1.spack" = true ∧
     (build_tarball
      { spec_concrete := true, force := true, rel := false, unsigned := true,
        relocatable_ok := true, gpg_available := true, signing_keys := [],
        key := none, push_ok := true, regenerate_index := false,
        spackfile_url := "s1.spack", specfile_url := "s1.spec.yaml" }
      ["s1.spack"]).remote_files.contains "s1.spec.yaml" = true) := by
  constructor
  · exact (build_tarball_overwrite_policy
      { spec_concrete := true, force := false, rel := false, unsigned := true,
        relocatable_ok := true, gpg_available := true, signing_keys := [],
        key := none, push_ok := true, regenerate_index := false,
        spackfile_url := "s1.spack", specfile_url := "s1.spec.yaml" }
      ["s1.spack"] rfl (Or.inl (by decide))).1 rfl
  · exact (build_tarball_overwrite_policy
      { spec_concrete := true, force := true, rel := false, unsigned := true,
        relocatable_ok := true, gpg_available := true, signing_keys := [],
        key := none, push_ok := true, regenerate_index := false,
        spackfile_url := "s1.spack", specfile_url := "s1.spec.yaml" }
      ["s1.spack"] rfl (Or.inl (by decide))).2 rfl rfl rfl (Or.inl rfl)

/-- Witness for C8 at a concrete input: with gpg available but two
signing identities and no key supplied, the build fails with
PickKeyException and nothing is published. -/
theorem build_tarball_sign_failures_w :
    (build_tarball
      { spec_concrete := true, force := false, rel := false, unsigned := false,
        relocatable_ok := true, gpg_available := true,
        signing_keys := ["k1", "k2"], key := none, push_ok := true,
        regenerate_index := false, spackfile_url := "s1.spack",
        specfile_url := "s1.spec.yaml" }
      []).err = some (BuildErr.signFailed SignErr.pickKey) ∧
    (build_tarball
      { spec_concrete := true, force := false, rel := false, unsigned := false,
        relocatable_ok := true, gpg_available := true,
        signing_keys := ["k1", "k2"], key := none, push_ok := true,
        regenerate_index := false, spackfile_url := "s1.spack",
        specfile_url := "s1.spec.yaml" }
      []).remote_files.contains "s1.spack" = false ∧
    (build_tarball
      { spec_concrete := true, force := false, rel := false, unsigned := false,
        relocatable_ok := true, gpg_available := true,
        signing_keys := ["k1", "k2"], key := none, push_ok := true,
        regenerate_index := false, spackfile_url := "s1.spack",
        specfile_url := "s1.spec.yaml" }
      []).remote_files.contains "s1.spec.yaml" = false :=
  (build_tarball_sign_failures
    { spec_concrete := true, force := false, rel := false, unsigned := false,
      relocatable_ok := true, gpg_available := true,
      signing_keys := ["k1", "k2"], key := none, push_ok := true,
      regenerate_index := false, spackfile_url := "s1.spack",
      specfile_url := "s1.spec.yaml" }
    [] rfl rfl rfl rfl (Or.inr ⟨rfl, rfl⟩)).2.1 rfl (by decide)

/-- Errors raised by extract_tarball. -/
inductive ExtractErr
  | noOverwrite
  | noVerify
  | verifyFailed
  | noChecksum
  | relocationFailed
deriving DecidableEq, Repr

/-- Inputs of extract_tarball beyond the initial filesystem state: the
force and unsigned flags, whether the archive carries a detached .asc
signature, whether Gpg.verify accepts it, the checksum recorded in the
spec-description document (binary_cache_checksum hash), the sha256
recomputed by checksum_tarball over the fetched compressed tarball, and
whether relocate_package succeeds. -/
structure ExtractArgs where
  force : Bool
  unsigned : Bool
  asc_exists : Bool
  gpg_verify_ok : Bool
  recorded_hash : String
  tarball_hash : String
  relocate_ok : Bool
deriving DecidableEq, Repr

/-- Filesystem state observed by extract_tarball: whether anything is
installed at spec.prefix, whether the scratch directory exists, and
whether the staged .spack file is still present. -/
structure ExtractFS where
  installed_at_spec_prefix : Bool
  tmpdir_present : Bool
  staged_file_present : Bool
deriving DecidableEq, Repr

/-- Result of extract_tarball: final filesystem state and the raised
error, if any. -/
structure ExtractResult where
  fs : ExtractFS
  err : Option ExtractErr
deriving DecidableEq, Repr

/-- Model of extract_tarball, following the source order.  An existing
prefix is removed under force (NoOverwriteException otherwise); the
scratch directory is created and the outer archive unpacked into it;
signature verification runs unless unsigned (missing .asc raises
NoVerifyException, a Gpg.verify exception is re-raised, both after
removing the scratch directory); checksum_tarball is compared against the
recorded checksum and a mismatch raises NoChecksumException after
removing the scratch directory, before anything is placed under
spec.prefix; only then is the inner tarball extracted into spec.prefix
and relocate_package run, whose failure deletes the freshly installed
prefix; the final cleanup removes the scratch directory and the staged
file. -/
def extract_tarball (a : ExtractArgs) (fs0 : ExtractFS) : ExtractResult :=
  if fs0.installed_at_spec_prefix && !a.force then
    { fs := fs0, err := some ExtractErr.noOverwrite }
  else
    let fs1 : ExtractFS :=
      { fs0 with installed_at_spec_prefix := false, tmpdir_present := true }
    if !a.unsigned && !a.asc_exists then
      { fs := { fs1 with tmpdir_present := false }, err := some ExtractErr.noVerify }
    else if !a.unsigned && !a.gpg_verify_ok then
      { fs := { fs1 with tmpdir_present := false }, err := some ExtractErr.verifyFailed }
    else if a.recorded_hash != a.tarball_hash then
      { fs := { fs1 with tmpdir_present := false }, err := some ExtractErr.noChecksum }
    else
      let fs2 : ExtractFS := { fs1 with installed_at_spec_prefix := true }
      if !a.relocate_ok then
        { fs := { fs2 with installed_at_spec_prefix := false,
                           tmpdir_present := false,
                           staged_file_present := false },
          err := some ExtractErr.relocationFailed }
      else
        { fs := { fs2 with tmpdir_present := false, staged_file_present := false },
          err := none }

/-- C1: when the recomputed sha256 of the fetched tarball differs from the
checksum recorded in the spec-description document (and the run reaches
the checksum step: no overwrite refusal and signature verification
passed or was disabled), extract_tarball raises NoChecksumException with
nothing installed under the destination prefix and the scratch directory
already removed. -/
theorem extract_tarball_checksum_mismatch_aborts (a : ExtractArgs) (fs0 : ExtractFS)
    (hreach1 : fs0.installed_at_spec_prefix = false ∨ a.force = true)
    (hreach2 : a.unsigned = true ∨ (a.asc_exists = true ∧ a.gpg_verify_ok = true))
    (hmm : a.recorded_hash ≠ a.tarball_hash) :
    (extract_tarball a fs0).err = some ExtractErr.noChecksum ∧
      (extract_tarball a fs0).fs.installed_at_spec_prefix = false ∧
      (extract_tarball a fs0).fs.tmpdir_present = false := by
  have hov : ¬(fs0.installed_at_spec_prefix && !a.force) = true := by
    rcases hreach1 with h | h
    · simp [h]
    · simp [h]
  have hnv : ¬(!a.unsigned && !a.asc_exists) = true := by
    rcases hreach2 with h | ⟨h1, h2⟩
    · simp [h]
    · simp [h1]
  have hvf : ¬(!a.unsigned && !a.gpg_verify_ok) = true := by
    rcases hreach2 with h | ⟨h1, h2⟩
    · simp [h]
    · simp [h2]
  have hb : extract_tarball a fs0 =
      { fs := { fs0 with installed_at_spec_prefix := false, tmpdir_present := false },
        err := some ExtractErr.noChecksum } := by
    simp only [extract_tarball]
    rw [if_neg hov, if_neg hnv, if_neg hvf, if_pos (by simp [bne_iff_ne, hmm])]
  rw [hb]
  exact ⟨rfl, rfl, rfl⟩

/-- Witness for C1 at a concrete input: an unsigned archive whose
recorded checksum differs from the recomputed one, extracted with
force=True over an existing prefix. -/
theorem extract_tarball_checksum_mismatch_aborts_w :
    (extract_tarball
      { force := true, unsigned := true, asc_exists := false, gpg_verify_ok := false,
        recorded_hash := "h1", tarball_hash := "h2", relocate_ok := true }
      { installed_at_spec_prefix := true, tmpdir_present := false,
        staged_file_present := true }).err = some ExtractErr.noChecksum ∧
    (extract_tarball
      { force := true, unsigned := true, asc_exists := false, gpg_verify_ok := false,
        recorded_hash := "h1", tarball_hash := "h2", relocate_ok := true }
      { installed_at_spec_prefix := true, tmpdir_present := false,
        staged_file_present := true }).fs.installed_at_spec_prefix = false ∧
    (extract_tarball
      { force := true, unsigned := true, asc_exists := false, gpg_verify_ok := false,
        recorded_hash := "h1", tarball_hash := "h2", relocate_ok := true }
      { installed_at_spec_prefix := true, tmpdir_present := false,
        staged_file_present := true }).fs.tmpdir_present = false :=
  extract_tarball_checksum_mismatch_aborts
    { force := true, unsigned := true, asc_exists := false, gpg_verify_ok := false,
      recorded_hash := "h1", tarball_hash := "h2", relocate_ok := true }
    { installed_at_spec_prefix := true, tmpdir_present := false,
      staged_file_present := true }
    (Or.inr rfl) (Or.inl rfl) (by decide)

/-- C10: with force=True and an existing installed prefix, extract_tarball
deletes the prefix in its first step, before any verification; when
verification then fails (missing signature, gpg rejection, or checksum
mismatch), the operation errors out with no installed prefix of any
version left at that path and the old one not restored. -/
theorem extract_tarball_force_removes_existing (a : ExtractArgs) (fs0 : ExtractFS)
    (hforce : a.force = true) (hpre : fs0.installed_at_spec_prefix = true)
    (hfail : (extract_tarball a fs0).err = some ExtractErr.noVerify ∨
      (extract_tarball a fs0).err = some ExtractErr.verifyFailed ∨
      (extract_tarball a fs0).err = some ExtractErr.noChecksum) :
    (extract_tarball a fs0).fs.installed_at_spec_prefix = false := by
  have hnov : ¬(fs0.installed_at_spec_prefix && !a.force) = true := by
    simp [hforce]
  have hcases : (extract_tarball a fs0).fs.installed_at_spec_prefix = false ∨
      (extract_tarball a fs0).err = none := by
    simp only [extract_tarball]
    rw [if_neg hnov]
    split
    · exact Or.inl rfl
    · split
      · exact Or.inl rfl
      · split
        · exact Or.inl rfl
        · split
          · exact Or.inl rfl
          · exact Or.inr rfl
  rcases hcases with h | h
  · exact h
  · exfalso
    rcases hfail with hf | hf | hf <;> rw [h] at hf <;> cases hf

/-- Witness for C10 at a concrete input: a signed archive with no .asc
file, installed with force=True over an existing prefix, fails signature
verification and leaves no installed prefix behind. -/
theorem extract_tarball_force_removes_existing_w :
    (extract_tarball
      { force := true, unsigned := false, asc_exists := false, gpg_verify_ok := true,
        recorded_hash := "h1", tarball_hash := "h1", relocate_ok := true }
      { installed_at_spec_prefix := true, tmpdir_present := false,
        staged_file_present := true }).fs.installed_at_spec_prefix = false :=
  extract_tarball_force_removes_existing
    { force := true, unsigned := false, asc_exists := false, gpg_verify_ok := true,
      recorded_hash := "h1", tarball_hash := "h1", relocate_ok := true }
    { installed_at_spec_prefix := true, tmpdir_present := false,
      staged_file_present := true }
    rfl rfl (Or.inl (by decide))

/-- Split a character sequence on the path separator. -/
def splitSlash : List Char → List (List Char)
  | [] => [[]]
  | c :: rest =>
    if c = '/' then [] :: splitSlash rest
    else
      match splitSlash rest with
      | [] => [[c]]
      | p :: ps => (c :: p) :: ps

/-- Nonempty components of a normalized POSIX path, as posixpath.relpath
obtains them from abspath(p).split(sep). -/
def pathParts (s : String) : List (List Char) :=
  (splitSlash s.data).filter (fun p => !p.isEmpty)

/-- Length of the common leading run of two component lists
(os.path.commonprefix on lists). -/
def commonLen : List (List Char) → List (List Char) → Nat
  | a :: as, b :: bs => if a = b then commonLen as bs + 1 else 0
  | _, _ => 0

/-- posixpath.relpath for already-absolute normalized paths: strip the
common leading components, prepend one '..' per remaining component of
start, and join; an empty result is the current directory. -/
def relpath (path start : String) : String :=
  let pl := pathParts path
  let sl := pathParts start
  let i := commonLen pl sl
  let rel := List.replicate (sl.length - i) ['.', '.'] ++ pl.drop i
  if rel.isEmpty then "." else String.mk (List.intercalate ['/'] rel)

/-- The buildinfo manifest read by relocate_package.  The source keys
spackprefix and relative_prefix are embedded as spackprefix_path and
relative_prefix_path. -/
structure BuildInfo where
  buildpath : String
  spackprefix_path : String
  relative_prefix_path : String
  relative_rpaths : Bool
  prefix_to_hash : Option (List (String × String))
  relocate_textfiles : List String
  relocate_binaries : List String
  relocate_links : List String
deriving DecidableEq, Repr

/-- Error raised by relocate_package (NewLayoutException). -/
inductive RelocErr
  | newLayout
deriving DecidableEq, Repr

/-- The file-mutating passes relocate_package can invoke, in source
order; the returned action list records which would run. -/
inductive RelocAction
  | relocateMachoBinaries
  | relocateElfBinaries
  | relocateLinks
  | relocateText
  | relocateTextBin
deriving DecidableEq, Repr

/-- Destination-side inputs of relocate_package: the current layout root,
the spec's install prefix and the spack tool root (the source names the
latter two new_prefix and new_spack_prefix), and the platform's binary
formats. -/
structure RelocateInputs where
  new_layout_root : String
  new_prefix_path : String
  new_spack_path : String
  binary_formats_macho : Bool
  binary_formats_elf : Bool
deriving DecidableEq, Repr

/-- Python truthiness of the optional prefix_to_hash dict: None and the
empty dict are falsy. -/
def pyTruthyDict : Option (List (String × String)) → Bool
  | none => false
  | some l => !l.isEmpty

/-- Model of relocate_package up to the selection of rewrite passes.  The
layout-compatibility guard runs first: when the recorded relative prefix
differs from the destination's relative prefix and the manifest has no
truthy prefix_to_hash map, NewLayoutException is raised before any
relocate.* call; otherwise the function returns the mutating passes it
would run (none at all when layout root and spack root are unchanged). -/
def relocate_package (inp : RelocateInputs) (bi : BuildInfo) :
    Except RelocErr (List RelocAction) :=
  let new_rel := relpath inp.new_prefix_path inp.new_layout_root
  let old_layout_root := bi.buildpath
  if bi.relative_prefix_path != new_rel && !pyTruthyDict bi.prefix_to_hash then
    Except.error RelocErr.newLayout
  else
    if old_layout_root != inp.new_layout_root then
      Except.ok
        ((if inp.binary_formats_macho then [RelocAction.relocateMachoBinaries] else []) ++
         (if inp.binary_formats_elf
           then [RelocAction.relocateElfBinaries, RelocAction.relocateLinks] else []) ++
         [RelocAction.relocateText, RelocAction.relocateTextBin])
    else
      if bi.spackprefix_path != inp.new_spack_path then
        Except.ok [RelocAction.relocateText]
      else Except.ok []

/-- C5: for an archive whose recorded relative prefix differs from the
destination layout's relative prefix and whose manifest has no
prefix_to_hash map (a legacy archive), relocate_package raises
NewLayoutException; the error is returned in place of the action list, so
no file of the unpacked prefix is mutated. -/
theorem relocate_package_legacy_layout_raises (inp : RelocateInputs) (bi : BuildInfo)
    (hdiff : bi.relative_prefix_path ≠ relpath inp.new_prefix_path inp.new_layout_root)
    (hlegacy : bi.prefix_to_hash = none) :
    relocate_package inp bi = Except.error RelocErr.newLayout := by
  simp only [relocate_package]
  rw [if_pos]
  simp [hlegacy, pyTruthyDict, bne_iff_ne, hdiff]

/-- Witness for C5 at the spec's layout-incompatibility example: an
archive built with relative prefix pkg-x/1.0 installed into a layout
whose relative prefix is pkg-x-v2/1.0, with no prefix_to_hash map. -/
theorem relocate_package_legacy_layout_raises_w :
    relocate_package
      { new_layout_root := "/opt/spack", new_prefix_path := "/opt/spack/pkg-x-v2/1.0",
        new_spack_path := "/srv/spack", binary_formats_macho := false,
        binary_formats_elf := true }
      { buildpath := "/old/spack", spackprefix_path := "/old/tools",
        relative_prefix_path := "pkg-x/1.0", relative_rpaths := false,
        prefix_to_hash := none, relocate_textfiles := [], relocate_binaries := [],
        relocate_links := [] }
      = Except.error RelocErr.newLayout :=
  relocate_package_legacy_layout_raises
    { new_layout_root := "/opt/spack", new_prefix_path := "/opt/spack/pkg-x-v2/1.0",
      new_spack_path := "/srv/spack", binary_formats_macho := false,
      binary_formats_elf := true }
    { buildpath := "/old/spack", spackprefix_path := "/old/tools",
      relative_prefix_path := "pkg-x/1.0", relative_rpaths := false,
      prefix_to_hash := none, relocate_textfiles := [], relocate_binaries := [],
      relocate_links := [] }
    (by decide) rfl
